import Mathlib

/-!
Verification of the okcourse course-content generator against its
natural-language specification.

The development shallowly embeds the parts of the Python code the claims
are about:

* `split_text_into_chunks` and its accumulation loop, from
  `src/okcourse/utils/string_utils.py` (lines 95-145);
* `sanitize_filename`, from the same file (lines 148-164);
* `combine_mp3_buffers` (validation, then concatenation) and the audio
  fan-in of `generate_audio`, from
  `src/okcourse/generators/openai/async_openai.py` (lines 45-185, 440-516);
* `generate_outline` and `generate_lectures` title/outline handling, from
  the same file (lines 218-349);
* the Retry Wrapper, which exists only in the specification (no retry code
  is present under `src/`), modelled from spec section 4.2.

Python strings are modelled as `List Char` (`Str`), whose `List.length`
agrees with Python `len` on code points.  Remote services (the LLM, the
TTS endpoint, the MP3 parsing library `mutagen`, the sentence tokenizer
`nltk`) are black-box collaborators per spec section 1; their outputs
appear as parameters or as observation fields of `Mp3Buffer`.
-/

deriving instance DecidableEq for Except

/-- A Python `str` modelled as its list of code points. -/
abbrev Str := List Char

/-- Python `" ".join(parts)`: the parts interleaved with single spaces. -/
def sjoin : List Str → Str
  | [] => []
  | s :: rest => s ++ (rest.map (fun t => ' ' :: t)).flatten

/-- Python `s.strip()`: leading and trailing whitespace removed. -/
def stripStr (s : Str) : Str :=
  ((s.dropWhile Char.isWhitespace).reverse.dropWhile Char.isWhitespace).reverse

/-- Python `s.lower()` (ASCII range, which covers every title the claims use). -/
def lowerStr (s : Str) : Str :=
  s.map Char.toLower

/-- Failure modes of `split_text_into_chunks`.  The Python code raises
`ValueError` at two distinct sites; the spec names the oversized-sentence
one `InputTooLargeError` (spec section 4.1). -/
inductive ChunkError where
  /-- Raised when `max_chunk_size < 1` (string_utils.py line 110). -/
  | maxChunkSizeNotPositive
  /-- Raised when a sentence is longer than `max_chunk_size`
  (string_utils.py lines 122-127); the spec calls this `InputTooLargeError`. -/
  | inputTooLarge (sentenceLength maxChunkSize : Nat)
deriving DecidableEq

/-- The sentence-accumulation loop of `split_text_into_chunks`
(string_utils.py lines 115-142).  Arguments mirror the Python locals
`chunks`, `current_chunk`, and `current_length`; the first list argument is
the remaining portion of `sentences`. -/
def splitLoop (maxChunkSize : Nat) :
    List Str → List Str → List Str → Nat → Except ChunkError (List Str)
  | [], chunks, currentChunk, _ =>
    Except.ok (if currentChunk.isEmpty then chunks else chunks ++ [sjoin currentChunk])
  | sentence :: rest, chunks, currentChunk, currentLength =>
    if maxChunkSize < sentence.length then
      Except.error (ChunkError.inputTooLarge sentence.length maxChunkSize)
    else if currentLength + sentence.length + 1 ≤ maxChunkSize then
      splitLoop maxChunkSize rest chunks (currentChunk ++ [sentence])
        (currentLength + sentence.length + 1)
    else
      splitLoop maxChunkSize rest
        (if currentChunk.isEmpty then chunks else chunks ++ [sjoin currentChunk])
        [sentence] sentence.length

/-- `split_text_into_chunks(text, max_chunk_size)` (string_utils.py lines
95-145).  The sentence tokenizer `nltk.sent_tokenize` is an out-of-scope
collaborator (spec section 1), so the function is embedded over its output:
the list of sentences of the text. -/
def split_text_into_chunks (sentences : List Str) (max_chunk_size : Nat) :
    Except ChunkError (List Str) :=
  if max_chunk_size < 1 then Except.error ChunkError.maxChunkSizeNotPositive
  else splitLoop max_chunk_size sentences [] [] 0

/-- Companion to `splitLoop` that records each chunk as its list of
sentences instead of the space-joined string; used to state the round-trip
property.  `splitLoop` equals this loop followed by mapping `sjoin`
(lemma `splitLoop_eq_groupsLoop`). -/
def chunkGroupsLoop (maxChunkSize : Nat) :
    List Str → List (List Str) → List Str → Nat → Except ChunkError (List (List Str))
  | [], chunks, currentChunk, _ =>
    Except.ok (if currentChunk.isEmpty then chunks else chunks ++ [currentChunk])
  | sentence :: rest, chunks, currentChunk, currentLength =>
    if maxChunkSize < sentence.length then
      Except.error (ChunkError.inputTooLarge sentence.length maxChunkSize)
    else if currentLength + sentence.length + 1 ≤ maxChunkSize then
      chunkGroupsLoop maxChunkSize rest chunks (currentChunk ++ [sentence])
        (currentLength + sentence.length + 1)
    else
      chunkGroupsLoop maxChunkSize rest
        (if currentChunk.isEmpty then chunks else chunks ++ [currentChunk])
        [sentence] sentence.length

/-- The per-chunk sentence groups of `split_text_into_chunks`. -/
def chunkGroups (sentences : List Str) (max_chunk_size : Nat) :
    Except ChunkError (List (List Str)) :=
  if max_chunk_size < 1 then Except.error ChunkError.maxChunkSizeNotPositive
  else chunkGroupsLoop max_chunk_size sentences [] [] 0

/-- Python regex class `\w` (ASCII range): letters, digits, underscore. -/
def isWordChar (c : Char) : Bool :=
  c.isAlphanum || c == '_'

/-- `sanitize_filename(name)` (string_utils.py lines 148-164):
strip, replace spaces with underscores, lowercase, then delete every
character outside `[\w\-]`. -/
def sanitize_filename (name : Str) : Str :=
  (((stripStr name).map (fun c => if c == ' ' then '_' else c)).map Char.toLower).filter
    (fun c => isWordChar c || c == '-')

/-- An in-memory MP3 buffer together with the observations the black-box
MP3 library (`mutagen`) makes of it: whether `MP3(data)` parses, the
parsed bitrate and sample rate, and the audio-frame offset the ID3 header
lookup yields for it (`ID3(data).size` when an ID3 header with frames is
present, otherwise 0; async_openai.py lines 141-147). -/
structure Mp3Buffer where
  data : List Nat
  parsesOk : Bool
  bitrate : Nat
  sampleRate : Nat
  audioOffset : Nat
deriving DecidableEq

/-- `_is_valid_mp3(data)` (async_openai.py lines 40-42): the bytes start
with the ASCII tag `ID3` (0x49 0x44 0x33) or with 0xff. -/
def is_valid_mp3 : List Nat → Bool
  | 73 :: 68 :: 51 :: _ => true
  | 255 :: _ => true
  | _ => false

/-- The codec parameters compared by `combine_mp3_buffers`:
`(temp_audio.info.bitrate, temp_audio.info.sample_rate)`
(async_openai.py line 120). -/
def bufferInfo (b : Mp3Buffer) : Nat × Nat :=
  (b.bitrate, b.sampleRate)

/-- Failure modes of `combine_mp3_buffers`.  The Python code raises
`ValueError` at four distinct sites; the spec (section 4.4) names the
parse failure `MalformedAudioSegmentError` and the parameter mismatch
`InconsistentCodecParametersError`. -/
inductive CombineError where
  /-- Raised for an empty buffer list (async_openai.py lines 101-102). -/
  | noBuffersProvided
  /-- Raised when a buffer fails the `_is_valid_mp3` byte check
  (async_openai.py lines 111-112). -/
  | invalidMp3Header
  /-- Raised when `MP3(data)` fails to parse the buffer at `index`
  (async_openai.py lines 115-118); spec name `MalformedAudioSegmentError`. -/
  | mp3ParseFailure (index : Nat)
  /-- Raised when the buffer at `index` has codec parameters `got`
  differing from the first buffer's `expected` (async_openai.py lines
  120-128); spec name `InconsistentCodecParametersError`. -/
  | inconsistentCodecParameters (index : Nat) (expected got : Nat × Nat)
deriving DecidableEq

/-- The validation pass of `combine_mp3_buffers` (async_openai.py lines
104-128): every buffer must look like MP3 data, parse, and agree with the
first buffer's codec parameters (`reference_info`). -/
def validateBuffers : List Mp3Buffer → Nat → Option (Nat × Nat) → Option CombineError
  | [], _, _ => none
  | b :: rest, index, referenceInfo =>
    if ¬ is_valid_mp3 b.data then some CombineError.invalidMp3Header
    else if ¬ b.parsesOk then some (CombineError.mp3ParseFailure index)
    else
      match referenceInfo with
      | none => validateBuffers rest (index + 1) (some (bufferInfo b))
      | some ref =>
        if bufferInfo b ≠ ref then
          some (CombineError.inconsistentCodecParameters index ref (bufferInfo b))
        else validateBuffers rest (index + 1) (some ref)

/-- The concatenation pass of `combine_mp3_buffers` (async_openai.py lines
131-150): the first buffer is written whole, every later buffer is written
from its audio-frame offset onward (its ID3 header skipped). -/
def combineData : List Mp3Buffer → List Nat
  | [] => []
  | b :: rest => b.data ++ (rest.map (fun c => c.data.drop c.audioOffset)).flatten

/-- `combine_mp3_buffers(mp3_buffers)` (async_openai.py lines 45-185).
Returns the result together with the bytes written to `output_buffer`:
on any validation failure the output buffer has not even been created, so
the written bytes are `[]`.  The final tagging step mutates the stream
through the out-of-scope `mutagen` library and is not part of the audio
content the claims are about. -/
def combine_mp3_buffers (mp3Buffers : List Mp3Buffer) :
    Except CombineError (List Nat) × List Nat :=
  if mp3Buffers.isEmpty then (Except.error CombineError.noBuffersProvided, [])
  else
    match validateBuffers mp3Buffers 0 none with
    | some e => (Except.error e, [])
    | none => (Except.ok (combineData mp3Buffers), combineData mp3Buffers)

/-- The audio-assembly stage applied to index-tagged buffers.
`generate_audio` (async_openai.py lines 463-508) passes the buffer list to
`combine_mp3_buffers` in exactly the order the list presents them — the
code comments "Assemble the chunk list in the same order the tasks were
created (no need to sort)" (line 474) — so any index tags are simply
discarded. -/
def assembleTaggedBuffers (tagged : List (Nat × Mp3Buffer)) :
    Except CombineError (List Nat) × List Nat :=
  combine_mp3_buffers (tagged.map Prod.snd)

/-- Ascending chunk-index order on tagged buffers. -/
def taggedLE (p q : Nat × Mp3Buffer) : Prop :=
  p.1 ≤ q.1

instance : DecidableRel taggedLE :=
  fun p q => inferInstanceAs (Decidable (p.1 ≤ q.1))

/-- The tagged buffers re-sorted ascending by chunk index. -/
def sortedByIndex (tagged : List (Nat × Mp3Buffer)) : List (Nat × Mp3Buffer) :=
  List.insertionSort taggedLE tagged

/-- What the specification asserts the assembler produces: the combined
audio of the buffers sorted ascending by chunk index. -/
def assembledSortedByIndex (tagged : List (Nat × Mp3Buffer)) : List Nat :=
  combineData ((sortedByIndex tagged).map Prod.snd)

/-- A buffer that passes both per-buffer validation checks of
`combine_mp3_buffers`: plausible MP3 bytes and a successful parse. -/
def bufferWellformed (b : Mp3Buffer) : Bool :=
  is_valid_mp3 b.data && b.parsesOk

/-- Modelled from the spec: one invocation outcome of the remote call the
Retry Wrapper (spec section 4.2) drives, indexed by attempt number.  No
retry code exists under `src/`; only the specification describes it. -/
inductive CallOutcome (α : Type) where
  | success (value : α)
  | rateLimited (message : Str)
  | failure (message : Str)

/-- Modelled from the spec: the overall result of the Retry Wrapper.
`retryExhausted` is the spec's `RetryExhaustedError`, wrapping the last
underlying error message. -/
inductive RetryResult (α : Type) where
  | ok (value : α)
  | retryExhausted (lastMessage : Str)
  | failed (message : Str)
deriving DecidableEq

/-- Modelled from the spec: the retry loop of the Retry Wrapper (spec
section 4.2), starting at 1-based attempt number `attempt`.  A success or
a non-rate-limit failure returns immediately; a rate-limit failure retries
while attempts remain, else fails with `retryExhausted` wrapping the last
error.  Sleeping and backoff-delay computation have no effect on which
attempts are made and are omitted.  Returns the result together with the
list of attempt numbers actually invoked. -/
def retryFrom {α : Type} (call : Nat → CallOutcome α) (maxAttempts attempt : Nat) :
    RetryResult α × List Nat :=
  match call attempt with
  | CallOutcome.success v => (RetryResult.ok v, [attempt])
  | CallOutcome.failure m => (RetryResult.failed m, [attempt])
  | CallOutcome.rateLimited m =>
    if h : attempt < maxAttempts then
      let r := retryFrom call maxAttempts (attempt + 1)
      (r.1, attempt :: r.2)
    else (RetryResult.retryExhausted m, [attempt])
termination_by maxAttempts - attempt

/-- Modelled from the spec: the Retry Wrapper entry point with a
configurable maximum attempt count (spec default 6). -/
def retry_with_backoff {α : Type} (call : Nat → CallOutcome α) (maxAttempts : Nat) :
    RetryResult α × List Nat :=
  retryFrom call maxAttempts 1

/-- `LectureTopic` (models.py lines 9-18). -/
structure LectureTopic where
  number : Nat
  title : Str
  subtopics : List Str
deriving DecidableEq

/-- `CourseOutline` (models.py lines 21-29). -/
structure CourseOutline where
  title : Str
  topics : List LectureTopic
deriving DecidableEq

/-- `Lecture` (models.py lines 32-38): a `LectureTopic` plus the lecture
text body. -/
structure Lecture where
  number : Nat
  title : Str
  subtopics : List Str
  text : Str
deriving DecidableEq

/-- The `CourseSettings` fields `generate_outline` consults
(models.py lines 66-120). -/
structure CourseSettings where
  numLectures : Nat
  numSubtopics : Nat
deriving DecidableEq

/-- `Course` (models.py lines 179-209), restricted to the fields the
claims are about. -/
structure Course where
  title : Option Str
  outline : Option CourseOutline
  lectures : Option (List Lecture)
  settings : CourseSettings
deriving DecidableEq

/-- `MAX_LECTURES` (constants.py line 31). -/
def MAX_LECTURES : Nat := 100

/-- Failure modes of the generator stages.  The Python code raises
`ValueError` for the title and count validations; the spec (section 7)
names them `MissingTitleError` and `LectureCountExceededError` and
postulates a `PreconditionError` for a stage called out of order. -/
inductive GenError where
  /-- Raised when the course has no title (async_openai.py lines 236-239);
  spec name `MissingTitleError`. -/
  | missingTitle
  /-- Raised when `num_lectures > MAX_LECTURES` (async_openai.py lines
  240-243); spec name `LectureCountExceededError`. -/
  | lectureCountExceeded
  /-- Modelled from the spec: the dedicated precondition-failure error the
  spec postulates for a stage called out of order (spec sections 4.5, 7).
  No code path under `src/` raises it. -/
  | preconditionError
  /-- The Python `AttributeError` produced by evaluating
  `course.outline.topics` when `course.outline` is `None`
  (async_openai.py line 340); there is no explicit precondition check. -/
  | attributeErrorNoneOutline
  /-- Raised by `_generate_lecture` when no topic carries the requested
  number (async_openai.py lines 292-294). -/
  | noTopicForLecture (number : Nat)
deriving DecidableEq

/-- The title-reset step of `generate_outline` (async_openai.py lines
271-274): the generated outline's title is overwritten with the
caller-supplied course title only when the two differ after `lower()`. -/
def resetOutlineTitle (courseTitle : Str) (generated : CourseOutline) : CourseOutline :=
  if lowerStr generated.title ≠ lowerStr courseTitle then
    { generated with title := courseTitle }
  else generated

/-- `generate_outline(course)` (async_openai.py lines 218-277).  The
remote completion endpoint is a black-box collaborator, so the outline it
returns is a parameter.  Token accounting and prompt assembly touch no
field the claims are about and are omitted. -/
def generate_outline (course : Course) (generatedOutline : CourseOutline) :
    Except GenError Course :=
  match course.title with
  | none => Except.error GenError.missingTitle
  | some t =>
    if stripStr t = [] then Except.error GenError.missingTitle
    else if MAX_LECTURES < course.settings.numLectures then
      Except.error GenError.lectureCountExceeded
    else Except.ok { course with outline := some (resetOutlineTitle t generatedOutline) }

/-- The topic lookup of `_generate_lecture` (async_openai.py line 292):
`next((t for t in course.outline.topics if t.number == lecture_number), None)`. -/
def find_topic (topics : List LectureTopic) (n : Nat) : Option LectureTopic :=
  topics.find? (fun t => t.number == n)

/-- `_generate_lecture(course, lecture_number)` (async_openai.py lines
279-324).  The remote lecture text (already word-swapped, a pure
post-processing of the black-box response) is a parameter. -/
def generate_lecture (outline : CourseOutline) (remoteText : LectureTopic → Str)
    (lectureNumber : Nat) : Except GenError Lecture :=
  match find_topic outline.topics lectureNumber with
  | none => Except.error (GenError.noTopicForLecture lectureNumber)
  | some topic =>
    Except.ok
      { number := topic.number, title := topic.title, subtopics := topic.subtopics,
        text := remoteText topic }

/-- `generate_lectures(course)` (async_openai.py lines 326-349): one task
per outline topic, results collected in task-creation order, then assigned
to `course.lectures`.  Evaluating `course.outline.topics` on a `None`
outline raises the Python `AttributeError` before any task is created. -/
def generate_lectures (course : Course) (remoteText : LectureTopic → Str) :
    Except GenError Course :=
  match course.outline with
  | none => Except.error GenError.attributeErrorNoneOutline
  | some outline =>
    (outline.topics.mapM (fun topic => generate_lecture outline remoteText topic.number)).map
      (fun lectures => { course with lectures := some lectures })

/-! ## Lemmas about the text chunker -/

theorem sjoin_nil : sjoin [] = [] := rfl

theorem sjoin_singleton (s : Str) : sjoin [s] = s := by
  simp [sjoin]

theorem sjoin_append_singleton (l : List Str) (s : Str) (h : l ≠ []) :
    sjoin (l ++ [s]) = sjoin l ++ ' ' :: s := by
  cases l with
  | nil => exact absurd rfl h
  | cons a as => simp [sjoin]

theorem length_sjoin_append_singleton (l : List Str) (s : Str) (curLen : Nat)
    (h : (sjoin l).length ≤ curLen) :
    (sjoin (l ++ [s])).length ≤ curLen + s.length + 1 := by
  cases l with
  | nil => simp [sjoin_singleton]; omega
  | cons a as =>
    rw [sjoin_append_singleton _ _ (by simp)]
    simp only [List.length_append, List.length_cons]
    omega

theorem splitLoop_eq_groupsLoop (M : Nat) (ss : List Str) :
    ∀ (chunks : List (List Str)) (cur : List Str) (curLen : Nat),
    splitLoop M ss (chunks.map sjoin) cur curLen =
      (chunkGroupsLoop M ss chunks cur curLen).map (List.map sjoin) := by
  induction ss with
  | nil =>
    intro chunks cur curLen
    simp only [splitLoop, chunkGroupsLoop, Except.map]
    by_cases h : cur.isEmpty <;> simp [h]
  | cons s rest ih =>
    intro chunks cur curLen
    simp only [splitLoop, chunkGroupsLoop]
    by_cases h1 : M < s.length
    · simp [h1, Except.map]
    · simp only [if_neg h1]
      by_cases h2 : curLen + s.length + 1 ≤ M
      · simp only [if_pos h2]
        exact ih chunks (cur ++ [s]) (curLen + s.length + 1)
      · simp only [if_neg h2]
        by_cases h3 : cur.isEmpty
        · simpa [h3] using ih chunks [s] s.length
        · have := ih (chunks ++ [cur]) [s] s.length
          simpa [h3] using this

theorem chunkGroupsLoop_ok (M : Nat) (ss : List Str) :
    ∀ (chunks : List (List Str)) (cur : List Str) (curLen : Nat),
    (∀ s ∈ ss, s.length ≤ M) →
    ∃ groups, chunkGroupsLoop M ss chunks cur curLen = Except.ok groups := by
  induction ss with
  | nil =>
    intro chunks cur curLen _
    exact ⟨_, rfl⟩
  | cons s rest ih =>
    intro chunks cur curLen h
    have hs : s.length ≤ M := h s (by simp)
    have hrest : ∀ t ∈ rest, t.length ≤ M := fun t ht => h t (by simp [ht])
    simp only [chunkGroupsLoop, if_neg (Nat.not_lt.mpr hs)]
    by_cases h2 : curLen + s.length + 1 ≤ M
    · simpa [h2] using ih chunks (cur ++ [s]) (curLen + s.length + 1) hrest
    · simpa [h2] using
        ih (if cur.isEmpty then chunks else chunks ++ [cur]) [s] s.length hrest

theorem chunkGroupsLoop_flatten (M : Nat) (ss : List Str) :
    ∀ (chunks : List (List Str)) (cur : List Str) (curLen : Nat) (groups : List (List Str)),
    chunkGroupsLoop M ss chunks cur curLen = Except.ok groups →
    groups.flatten = chunks.flatten ++ cur ++ ss := by
  induction ss with
  | nil =>
    intro chunks cur curLen groups h
    simp only [chunkGroupsLoop] at h
    by_cases hc : cur.isEmpty
    · have : cur = [] := List.isEmpty_iff.mp hc
      simp [hc] at h
      simp [← h, this]
    · simp [hc] at h
      simp [← h]
  | cons s rest ih =>
    intro chunks cur curLen groups h
    simp only [chunkGroupsLoop] at h
    by_cases h1 : M < s.length
    · simp [h1] at h
    · simp only [if_neg h1] at h
      by_cases h2 : curLen + s.length + 1 ≤ M
      · simp only [if_pos h2] at h
        have := ih chunks (cur ++ [s]) (curLen + s.length + 1) groups h
        simpa using this
      · simp only [if_neg h2] at h
        by_cases hc : cur.isEmpty
        · have hcur : cur = [] := List.isEmpty_iff.mp hc
          simp only [hc, if_true] at h
          have := ih chunks [s] s.length groups h
          simp [this, hcur]
        · simp only [hc, if_false] at h
          have := ih (chunks ++ [cur]) [s] s.length groups h
          simp [this]

theorem splitLoop_length_bound (M : Nat) (ss : List Str) :
    ∀ (chunks cur : List Str) (curLen : Nat) (out : List Str),
    (∀ s ∈ ss, s.length ≤ M) →
    (∀ c ∈ chunks, c.length ≤ M) →
    (sjoin cur).length ≤ curLen →
    curLen ≤ M →
    splitLoop M ss chunks cur curLen = Except.ok out →
    ∀ c ∈ out, c.length ≤ M := by
  induction ss with
  | nil =>
    intro chunks cur curLen out _ hchunks hcur hlen h
    simp only [splitLoop] at h
    by_cases hc : cur.isEmpty
    · simp [hc] at h
      exact h ▸ hchunks
    · simp [hc] at h
      subst h
      intro c hmem
      rcases List.mem_append.mp hmem with h1 | h2
      · exact hchunks c h1
      · rcases List.mem_singleton.mp h2 with rfl
        omega
  | cons s rest ih =>
    intro chunks cur curLen out hss hchunks hcur hlen h
    have hs : s.length ≤ M := hss s (by simp)
    have hrest : ∀ t ∈ rest, t.length ≤ M := fun t ht => hss t (by simp [ht])
    simp only [splitLoop, if_neg (Nat.not_lt.mpr hs)] at h
    by_cases h2 : curLen + s.length + 1 ≤ M
    · simp only [if_pos h2] at h
      refine ih chunks (cur ++ [s]) (curLen + s.length + 1) out hrest hchunks ?_ h2 h
      exact length_sjoin_append_singleton cur s curLen hcur
    · simp only [if_neg h2] at h
      refine ih (if cur.isEmpty then chunks else chunks ++ [sjoin cur]) [s] s.length out
        hrest ?_ (by simp [sjoin_singleton]) hs h
      intro c hmem
      by_cases hc : cur.isEmpty
      · exact hchunks c (by simpa [hc] using hmem)
      · simp only [hc, if_false] at hmem
        rcases List.mem_append.mp hmem with h1 | h3
        · exact hchunks c h1
        · rcases List.mem_singleton.mp h3 with rfl
          omega

theorem splitLoop_error_of_oversized (M : Nat) (ss : List Str) :
    ∀ (chunks cur : List Str) (curLen : Nat),
    (∃ s ∈ ss, M < s.length) →
    ∃ n, splitLoop M ss chunks cur curLen = Except.error (ChunkError.inputTooLarge n M) ∧
      M < n := by
  induction ss with
  | nil =>
    intro _ _ _ h
    rcases h with ⟨s, hmem, _⟩
    exact absurd hmem (List.not_mem_nil s)
  | cons s rest ih =>
    intro chunks cur curLen h
    by_cases h1 : M < s.length
    · exact ⟨s.length, by simp [splitLoop, h1], h1⟩
    · have hrest : ∃ t ∈ rest, M < t.length := by
        rcases h with ⟨t, hmem, ht⟩
        rcases List.mem_cons.mp hmem with rfl | hm
        · exact absurd ht h1
        · exact ⟨t, hm, ht⟩
      simp only [splitLoop, if_neg h1]
      by_cases h2 : curLen + s.length + 1 ≤ M
      · simpa [h2] using ih chunks (cur ++ [s]) (curLen + s.length + 1) hrest
      · simpa [h2] using
          ih (if cur.isEmpty then chunks else chunks ++ [sjoin cur]) [s] s.length hrest

/-! ## Claim theorems for the text chunker -/

/-- C2: for every sentence sequence and maximum chunk size at least 1 in
which every sentence fits the maximum, `split_text_into_chunks` returns
chunks that are exactly the space-joins of consecutive sentence groups
whose concatenation is the original sentence sequence: no sentence is
dropped, duplicated, split, or reordered. -/
theorem chunker_round_trip (sentences : List Str) (M : Nat)
    (hM : 1 ≤ M) (hfit : ∀ s ∈ sentences, s.length ≤ M) :
    ∃ groups : List (List Str),
      split_text_into_chunks sentences M = Except.ok (groups.map sjoin) ∧
      groups.flatten = sentences := by
  obtain ⟨groups, hok⟩ := chunkGroupsLoop_ok M sentences [] [] 0 hfit
  refine ⟨groups, ?_, ?_⟩
  · have hrel := splitLoop_eq_groupsLoop M sentences [] [] 0
    simp only [List.map_nil] at hrel
    rw [split_text_into_chunks, if_neg (by omega), hrel, hok]
    rfl
  · simpa using chunkGroupsLoop_flatten M sentences [] [] 0 groups hok

/-- Witness for C2 at a concrete input. -/
theorem chunker_round_trip_witness :
    1 ≤ 5 ∧ (∀ s ∈ [['a', 'b'], ['c', 'd'], ['e', 'f']], List.length s ≤ 5) ∧
    ∃ groups : List (List Str),
      split_text_into_chunks [['a', 'b'], ['c', 'd'], ['e', 'f']] 5 =
        Except.ok (groups.map sjoin) ∧
      groups.flatten = [['a', 'b'], ['c', 'd'], ['e', 'f']] :=
  ⟨by decide, by decide,
    chunker_round_trip [['a', 'b'], ['c', 'd'], ['e', 'f']] 5 (by decide) (by decide)⟩

/-- C3: for every sentence sequence and maximum chunk size at least 1 in
which every sentence fits the maximum, every chunk string returned by
`split_text_into_chunks` has length at most the maximum. -/
theorem chunker_chunk_length_le_max (sentences : List Str) (M : Nat) (chunks : List Str)
    (hM : 1 ≤ M) (hfit : ∀ s ∈ sentences, s.length ≤ M)
    (hok : split_text_into_chunks sentences M = Except.ok chunks) :
    ∀ c ∈ chunks, c.length ≤ M := by
  rw [split_text_into_chunks, if_neg (by omega)] at hok
  exact splitLoop_length_bound M sentences [] [] 0 chunks hfit
    (by intro c hc; exact absurd hc (List.not_mem_nil c))
    (by simp [sjoin_nil]) (by omega) hok

/-- Witness for C3 at a concrete input. -/
theorem chunker_chunk_length_le_max_witness :
    split_text_into_chunks [['a', 'b'], ['c', 'd'], ['e', 'f']] 5 =
      Except.ok [['a', 'b'], ['c', 'd', ' ', 'e', 'f']] ∧
    ∀ c ∈ [['a', 'b'], ['c', 'd', ' ', 'e', 'f']], List.length c ≤ 5 :=
  ⟨by decide,
    chunker_chunk_length_le_max [['a', 'b'], ['c', 'd'], ['e', 'f']] 5
      [['a', 'b'], ['c', 'd', ' ', 'e', 'f']] (by decide) (by decide) (by decide)⟩

/-- C4: for every sentence sequence and maximum chunk size at least 1, if
some sentence is strictly longer than the maximum, `split_text_into_chunks`
fails with the oversized-sentence error (the spec's `InputTooLargeError`)
and returns no chunk list. -/
theorem chunker_oversized_sentence_error (sentences : List Str) (M : Nat)
    (hM : 1 ≤ M) (hbig : ∃ s ∈ sentences, M < s.length) :
    ∃ n, split_text_into_chunks sentences M = Except.error (ChunkError.inputTooLarge n M) ∧
      M < n := by
  rw [split_text_into_chunks, if_neg (by omega)]
  exact splitLoop_error_of_oversized M sentences [] [] 0 hbig

/-- Witness for C4 at a concrete input. -/
theorem chunker_oversized_sentence_error_witness :
    1 ≤ 3 ∧ (∃ s ∈ [['a', 'b'], ['c', 'd', 'e', 'f']], 3 < List.length s) ∧
    ∃ n, split_text_into_chunks [['a', 'b'], ['c', 'd', 'e', 'f']] 3 =
      Except.error (ChunkError.inputTooLarge n 3) ∧ 3 < n :=
  ⟨by decide, by decide,
    chunker_oversized_sentence_error [['a', 'b'], ['c', 'd', 'e', 'f']] 3 (by decide)
      (by decide)⟩

/-! ## Lemmas about the audio assembler -/

theorem validateBuffers_none_imp_agree (bufs : List Mp3Buffer) :
    ∀ (i : Nat) (ref : Nat × Nat),
    validateBuffers bufs i (some ref) = none →
    ∀ b ∈ bufs, bufferInfo b = ref := by
  induction bufs with
  | nil =>
    intro i ref _ b hb
    exact absurd hb (List.not_mem_nil b)
  | cons b rest ih =>
    intro i ref h c hc
    simp only [validateBuffers] at h
    by_cases h1 : is_valid_mp3 b.data
    · simp only [h1, not_true, if_false] at h
      by_cases h2 : b.parsesOk
      · simp only [h2, not_true, if_false] at h
        by_cases h3 : bufferInfo b = ref
        · rw [h3, if_neg (fun hne => hne rfl)] at h
          rcases List.mem_cons.mp hc with rfl | hm
          · exact h3
          · exact ih (i + 1) ref h c hm
        · simp [h3] at h
      · simp [h2] at h
    · simp [h1] at h

theorem bufferWellformed_elim {b : Mp3Buffer} (h : bufferWellformed b = true) :
    is_valid_mp3 b.data = true ∧ b.parsesOk = true := by
  simpa [bufferWellformed, Bool.and_eq_true] using h

theorem validateBuffers_ok_of_agree (bufs : List Mp3Buffer) :
    ∀ (i : Nat) (ref : Nat × Nat),
    (∀ b ∈ bufs, bufferWellformed b = true) →
    (∀ b ∈ bufs, bufferInfo b = ref) →
    validateBuffers bufs i (some ref) = none := by
  induction bufs with
  | nil => intro i ref _ _; rfl
  | cons b rest ih =>
    intro i ref hw hagree
    obtain ⟨h1, h2⟩ := bufferWellformed_elim (hw b (by simp))
    have h3 : bufferInfo b = ref := hagree b (by simp)
    simp only [validateBuffers, h1, h2, not_true, Bool.false_eq_true, if_false]
    rw [h3, if_neg (fun hne => hne rfl)]
    exact ih (i + 1) ref (fun c hc => hw c (by simp [hc])) (fun c hc => hagree c (by simp [hc]))

theorem validateBuffers_ok_of_pairwise_agree (bufs : List Mp3Buffer)
    (hw : ∀ b ∈ bufs, bufferWellformed b = true)
    (hagree : ∀ b ∈ bufs, ∀ c ∈ bufs, bufferInfo b = bufferInfo c) :
    validateBuffers bufs 0 none = none := by
  cases bufs with
  | nil => rfl
  | cons b rest =>
    obtain ⟨h1, h2⟩ := bufferWellformed_elim (hw b (by simp))
    simp only [validateBuffers, h1, h2, not_true, Bool.false_eq_true, if_false]
    exact validateBuffers_ok_of_agree rest 1 (bufferInfo b)
      (fun c hc => hw c (by simp [hc]))
      (fun c hc => hagree c (by simp [hc]) b (by simp))

theorem validateBuffers_shape (bufs : List Mp3Buffer) :
    ∀ (i : Nat) (ref : Option (Nat × Nat)),
    (∀ b ∈ bufs, bufferWellformed b = true) →
    validateBuffers bufs i ref = none ∨
    ∃ j exp got, validateBuffers bufs i ref =
      some (CombineError.inconsistentCodecParameters j exp got) ∧ exp ≠ got := by
  induction bufs with
  | nil => intro i ref _; exact Or.inl rfl
  | cons b rest ih =>
    intro i ref hw
    obtain ⟨h1, h2⟩ := bufferWellformed_elim (hw b (by simp))
    have hrest : ∀ c ∈ rest, bufferWellformed c = true := fun c hc => hw c (by simp [hc])
    cases ref with
    | none =>
      simp only [validateBuffers, h1, h2, not_true, Bool.false_eq_true, if_false]
      exact ih (i + 1) (some (bufferInfo b)) hrest
    | some r =>
      simp only [validateBuffers, h1, h2, not_true, Bool.false_eq_true, if_false]
      by_cases h3 : bufferInfo b = r
      · rw [h3, if_neg (fun hne => hne rfl)]
        exact ih (i + 1) (some r) hrest
      · rw [if_pos h3]
        exact Or.inr ⟨i, r, bufferInfo b, rfl, fun he => h3 he.symm⟩

/-! ## Claim theorems for the audio assembler -/

/-- C10: for the empty list of audio buffers, `combine_mp3_buffers` fails
with the no-buffers error (Python message "No MP3 buffers provided for
combination.") and produces no output bytes. -/
theorem combine_empty_input_fails :
    combine_mp3_buffers [] = (Except.error CombineError.noBuffersProvided, []) := rfl

/-- C5: for every non-empty list of buffers that all pass the per-buffer
checks but in which two buffers disagree on bitrate or sample rate,
`combine_mp3_buffers` fails with the codec-mismatch error (the spec's
`InconsistentCodecParametersError`) and writes no output bytes: validation
precedes all concatenation. -/
theorem combine_inconsistent_codec_fails (bufs : List Mp3Buffer)
    (hw : ∀ b ∈ bufs, bufferWellformed b = true)
    (hne : ∃ b ∈ bufs, ∃ c ∈ bufs, bufferInfo b ≠ bufferInfo c) :
    ∃ j exp got,
      combine_mp3_buffers bufs =
        (Except.error (CombineError.inconsistentCodecParameters j exp got), []) ∧
      exp ≠ got := by
  have hnonempty : bufs ≠ [] := by
    rcases hne with ⟨b, hb, _⟩
    intro h
    subst h
    exact absurd hb (List.not_mem_nil b)
  rcases validateBuffers_shape bufs 0 none hw with hnone | ⟨j, exp, got, herr, hneq⟩
  · exfalso
    cases bufs with
    | nil => exact hnonempty rfl
    | cons b rest =>
      obtain ⟨h1, h2⟩ := bufferWellformed_elim (hw b (by simp))
      simp only [validateBuffers, h1, h2, not_true, Bool.false_eq_true, if_false] at hnone
      have hall := validateBuffers_none_imp_agree rest 1 (bufferInfo b) hnone
      have hallcons : ∀ c ∈ b :: rest, bufferInfo c = bufferInfo b := by
        intro c hc
        rcases List.mem_cons.mp hc with rfl | hm
        · rfl
        · exact hall c hm
      rcases hne with ⟨x, hx, y, hy, hxy⟩
      exact hxy ((hallcons x hx).trans (hallcons y hy).symm)
  · refine ⟨j, exp, got, ?_, hneq⟩
    rw [combine_mp3_buffers, if_neg (by simp [hnonempty]), herr]

/-- Witness for C5 at two concrete buffers disagreeing on sample rate. -/
theorem combine_inconsistent_codec_fails_witness :
    (∀ b ∈ [(⟨[255], true, 128000, 44100, 0⟩ : Mp3Buffer),
            (⟨[255], true, 128000, 22050, 0⟩ : Mp3Buffer)], bufferWellformed b = true) ∧
    ∃ j exp got,
      combine_mp3_buffers
          [(⟨[255], true, 128000, 44100, 0⟩ : Mp3Buffer),
           (⟨[255], true, 128000, 22050, 0⟩ : Mp3Buffer)] =
        (Except.error (CombineError.inconsistentCodecParameters j exp got), []) ∧
      exp ≠ got :=
  ⟨by decide,
    combine_inconsistent_codec_fails
      [(⟨[255], true, 128000, 44100, 0⟩ : Mp3Buffer),
       (⟨[255], true, 128000, 22050, 0⟩ : Mp3Buffer)]
      (by decide)
      ⟨⟨[255], true, 128000, 44100, 0⟩, by decide, ⟨[255], true, 128000, 22050, 0⟩,
        by decide, by decide⟩⟩

/-- C1 counterexample: the assembler does not re-sort by chunk index.
Two wellformed, codec-consistent buffers tagged 2 and 1 and presented in
that order are concatenated in presentation order, not in ascending index
order, so the output differs from the sorted-by-index concatenation. -/
theorem assembler_ignores_index_tags_counterexample :
    assembleTaggedBuffers
        [(2, ⟨[255, 2], true, 128000, 44100, 0⟩), (1, ⟨[255, 1], true, 128000, 44100, 0⟩)] =
      (Except.ok [255, 2, 255, 1], [255, 2, 255, 1]) ∧
    assembledSortedByIndex
        [(2, ⟨[255, 2], true, 128000, 44100, 0⟩), (1, ⟨[255, 1], true, 128000, 44100, 0⟩)] =
      [255, 1, 255, 2] ∧
    ([255, 2, 255, 1] : List Nat) ≠ [255, 1, 255, 2] := by
  decide

/-- C1 amended: the assembler concatenates buffers in presentation order;
when the tagged buffers are presented in ascending chunk-index order — as
`generate_audio` does by collecting task results in task-creation order —
the assembled output equals the sorted-by-index concatenation. -/
theorem assembler_sorted_presentation_eq_sorted_concat
    (tagged : List (Nat × Mp3Buffer))
    (hne : tagged ≠ [])
    (hw : ∀ p ∈ tagged, bufferWellformed p.2 = true)
    (hagree : ∀ p ∈ tagged, ∀ q ∈ tagged, bufferInfo p.2 = bufferInfo q.2)
    (hsorted : List.Sorted taggedLE tagged) :
    assembleTaggedBuffers tagged =
      (Except.ok (assembledSortedByIndex tagged), assembledSortedByIndex tagged) := by
  have hsort_eq : sortedByIndex tagged = tagged := hsorted.insertionSort_eq
  have hasm : assembledSortedByIndex tagged = combineData (tagged.map Prod.snd) := by
    rw [assembledSortedByIndex, hsort_eq]
  have hvalid : validateBuffers (tagged.map Prod.snd) 0 none = none := by
    apply validateBuffers_ok_of_pairwise_agree
    · intro b hb
      rcases List.mem_map.mp hb with ⟨p, hp, rfl⟩
      exact hw p hp
    · intro b hb c hc
      rcases List.mem_map.mp hb with ⟨p, hp, rfl⟩
      rcases List.mem_map.mp hc with ⟨q, hq, rfl⟩
      exact hagree p hp q hq
  rw [assembleTaggedBuffers, hasm, combine_mp3_buffers, if_neg (by simp [hne]), hvalid]

/-- Witness for the amended C1 at a concrete ascending-index presentation. -/
theorem assembler_sorted_presentation_witness :
    assembleTaggedBuffers
        [(1, ⟨[255, 1], true, 128000, 44100, 0⟩), (2, ⟨[255, 2], true, 128000, 44100, 0⟩)] =
      (Except.ok
        (assembledSortedByIndex
          [(1, ⟨[255, 1], true, 128000, 44100, 0⟩), (2, ⟨[255, 2], true, 128000, 44100, 0⟩)]),
       assembledSortedByIndex
          [(1, ⟨[255, 1], true, 128000, 44100, 0⟩), (2, ⟨[255, 2], true, 128000, 44100, 0⟩)]) :=
  assembler_sorted_presentation_eq_sorted_concat
    [(1, ⟨[255, 1], true, 128000, 44100, 0⟩), (2, ⟨[255, 2], true, 128000, 44100, 0⟩)]
    (by decide) (by decide) (by decide) (by decide)

/-! ## Claim theorems for the Retry Wrapper (spec-modelled) -/

theorem retryFrom_all_rate_limited {α : Type} (call : Nat → CallOutcome α)
    (errs : Nat → Str) (N : Nat)
    (hcall : ∀ j, call j = CallOutcome.rateLimited (errs j)) :
    ∀ (k a : Nat), a ≤ N → N - a = k →
    retryFrom call N a = (RetryResult.retryExhausted (errs N), List.range' a (N + 1 - a)) := by
  intro k
  induction k with
  | zero =>
    intro a ha hk
    have haN : a = N := by omega
    subst haN
    have h1 : a + 1 - a = 1 := by omega
    rw [retryFrom, hcall a, h1]
    simp [List.range'_one]
  | succ k ih =>
    intro a ha hk
    have haN : a < N := by omega
    have h1 : N + 1 - a = (N - a) + 1 := by omega
    have hrec := ih (a + 1) (by omega) (by omega)
    have h2 : N + 1 - (a + 1) = N - a := by omega
    rw [h2] at hrec
    rw [retryFrom, hcall a, h1, List.range'_succ]
    simp [haN, hrec]

/-- C6: when every invocation of the wrapped call fails with a rate-limit
signal, `retry_with_backoff` with maximum attempt count N invokes attempts
1 through N — exactly N invocations, never an (N+1)th — and fails with
`retryExhausted` (the spec's `RetryExhaustedError`) wrapping the error of
the last (Nth) invocation. -/
theorem retry_exhausts_after_max_attempts {α : Type} (call : Nat → CallOutcome α)
    (errs : Nat → Str) (N : Nat) (hN : 1 ≤ N)
    (hcall : ∀ j, call j = CallOutcome.rateLimited (errs j)) :
    retry_with_backoff call N =
      (RetryResult.retryExhausted (errs N), List.range' 1 N) ∧
    (List.range' 1 N).length = N ∧ N + 1 ∉ List.range' 1 N := by
  refine ⟨?_, by simp, ?_⟩
  · have h := retryFrom_all_rate_limited call errs N hcall (N - 1) 1 hN (by omega)
    have h1 : N + 1 - 1 = N := by omega
    rw [h1] at h
    rw [retry_with_backoff, h]
  · intro hmem
    rw [List.mem_range'_1] at hmem
    omega

/-- Witness for C6 at the spec's default maximum of 6 attempts. -/
theorem retry_exhausts_after_max_attempts_witness :
    retry_with_backoff (fun _ => CallOutcome.rateLimited (α := Nat) ['e']) 6 =
      (RetryResult.retryExhausted ['e'], List.range' 1 6) ∧
    (List.range' 1 6).length = 6 ∧ 6 + 1 ∉ List.range' 1 6 :=
  retry_exhausts_after_max_attempts (fun _ => CallOutcome.rateLimited ['e'])
    (fun _ => ['e']) 6 (by decide) (fun _ => rfl)

/-! ## Claim theorems for the generator stages -/

/-- C7 counterexample: the title reset of `generate_outline` is
case-insensitive.  For the caller-supplied title "Graph Theory" and a
remote outline titled "GRAPH THEORY" — a returned title that differs from
the caller-supplied one — the outline title is not reset: the persisted
outline keeps "GRAPH THEORY", which differs from the caller-supplied
value, refuting "whenever the returned outline title differs from the
caller-supplied title, it is forcibly reset". -/
theorem outline_title_case_variant_not_reset_counterexample :
    generate_outline
        { title := some ['G', 'r', 'a', 'p', 'h', ' ', 'T', 'h', 'e', 'o', 'r', 'y'],
          outline := none, lectures := none,
          settings := { numLectures := 3, numSubtopics := 4 } }
        { title := ['G', 'R', 'A', 'P', 'H', ' ', 'T', 'H', 'E', 'O', 'R', 'Y'], topics := [] } =
      Except.ok
        { title := some ['G', 'r', 'a', 'p', 'h', ' ', 'T', 'h', 'e', 'o', 'r', 'y'],
          outline := some
            { title := ['G', 'R', 'A', 'P', 'H', ' ', 'T', 'H', 'E', 'O', 'R', 'Y'],
              topics := [] },
          lectures := none,
          settings := { numLectures := 3, numSubtopics := 4 } } ∧
    (['G', 'R', 'A', 'P', 'H', ' ', 'T', 'H', 'E', 'O', 'R', 'Y'] : Str) ≠
      ['G', 'r', 'a', 'p', 'h', ' ', 'T', 'h', 'e', 'o', 'r', 'y'] := by
  decide

/-- C7 amended: after a successful `generate_outline`, the Course's own
title field still equals the caller-supplied title, and the persisted
outline's title is reset to the caller-supplied value exactly when the
returned title differs case-insensitively — so the outline title always
equals the caller-supplied title up to letter case, and equals it exactly
whenever the returned title is not a mere case variant of it. -/
theorem outline_title_reset_case_insensitive (course : Course) (t : Str)
    (gen : CourseOutline) (c2 : Course)
    (htitle : course.title = some t)
    (hok : generate_outline course gen = Except.ok c2) :
    c2.title = some t ∧
    c2.outline = some (resetOutlineTitle t gen) ∧
    ∀ o, c2.outline = some o →
      lowerStr o.title = lowerStr t ∧ (lowerStr gen.title ≠ lowerStr t → o.title = t) := by
  simp only [generate_outline, htitle] at hok
  by_cases h1 : stripStr t = []
  · simp [h1] at hok
  · rw [if_neg h1] at hok
    by_cases h2 : MAX_LECTURES < course.settings.numLectures
    · simp [h2] at hok
    · rw [if_neg h2] at hok
      injection hok with h3
      subst h3
      refine ⟨rfl, rfl, ?_⟩
      intro o ho
      have ho2 : resetOutlineTitle t gen = o := by
        simpa using ho
      subst ho2
      rw [resetOutlineTitle]
      by_cases hcase : lowerStr gen.title ≠ lowerStr t
      · rw [if_pos hcase]
        exact ⟨rfl, fun _ => rfl⟩
      · rw [if_neg hcase]
        exact ⟨Decidable.not_not.mp hcase, fun h => absurd h hcase⟩

/-- Witness for the amended C7 at a concrete course and remote outline. -/
theorem outline_title_reset_case_insensitive_witness :
    generate_outline
        { title := some ['G', 'T'], outline := none, lectures := none,
          settings := { numLectures := 3, numSubtopics := 4 } }
        { title := ['X'], topics := [] } =
      Except.ok
        { title := some ['G', 'T'],
          outline := some { title := ['G', 'T'], topics := [] },
          lectures := none,
          settings := { numLectures := 3, numSubtopics := 4 } } ∧
    (some ['G', 'T'] : Option Str) = some ['G', 'T'] ∧
    (some { title := ['G', 'T'], topics := [] } : Option CourseOutline) =
      some (resetOutlineTitle ['G', 'T'] { title := ['X'], topics := [] }) ∧
    ∀ o, (some { title := ['G', 'T'], topics := [] } : Option CourseOutline) = some o →
      lowerStr o.title = lowerStr ['G', 'T'] ∧
      (lowerStr ['X'] ≠ lowerStr ['G', 'T'] → o.title = ['G', 'T']) := by
  refine ⟨by decide, ?_⟩
  have h := outline_title_reset_case_insensitive
    { title := some ['G', 'T'], outline := none, lectures := none,
      settings := { numLectures := 3, numSubtopics := 4 } }
    ['G', 'T'] { title := ['X'], topics := [] }
    { title := some ['G', 'T'],
      outline := some { title := ['G', 'T'], topics := [] },
      lectures := none,
      settings := { numLectures := 3, numSubtopics := 4 } }
    (by decide) (by decide)
  simpa using h

/-- C8 counterexample: calling `generate_lectures` on a course whose
outline is null fails with the attribute error arising from dereferencing
the null outline, not with the dedicated precondition error the spec
postulates — the code performs no precondition check. -/
theorem lectures_no_precondition_check_counterexample :
    generate_lectures
        { title := some ['T'], outline := none, lectures := none,
          settings := { numLectures := 3, numSubtopics := 4 } }
        (fun _ => []) =
      Except.error GenError.attributeErrorNoneOutline ∧
    GenError.attributeErrorNoneOutline ≠ GenError.preconditionError := by
  decide

/-- C8 amended: calling `generate_lectures` on a course whose outline is
null fails — with the attribute error from dereferencing the null
outline — for every possible remote behavior, hence before any remote
call is attempted, and returns no course: the lectures field is never
assigned. -/
theorem lectures_null_outline_fails_before_remote (course : Course)
    (houtline : course.outline = none) :
    ∀ remoteText : LectureTopic → Str,
      generate_lectures course remoteText = Except.error GenError.attributeErrorNoneOutline := by
  intro remoteText
  rw [generate_lectures, houtline]

/-- Witness for the amended C8 at a concrete course. -/
theorem lectures_null_outline_fails_before_remote_witness :
    generate_lectures
        { title := some ['T'], outline := none, lectures := none,
          settings := { numLectures := 3, numSubtopics := 4 } }
        (fun _ => ['x']) =
      Except.error GenError.attributeErrorNoneOutline :=
  lectures_null_outline_fails_before_remote
    { title := some ['T'], outline := none, lectures := none,
      settings := { numLectures := 3, numSubtopics := 4 } }
    rfl (fun _ => ['x'])

/-! ## Claim theorems for filename sanitization -/

theorem toLower_isUpper_eq_false (c : Char) : (Char.toLower c).isUpper = false := by
  unfold Char.toLower
  by_cases h : 65 ≤ c.toNat ∧ c.toNat ≤ 90
  · rw [if_pos h]
    obtain ⟨h1, h2⟩ := h
    set n := c.toNat with hn
    interval_cases n <;> decide
  · rw [if_neg h]
    unfold Char.isUpper
    rw [Bool.and_eq_false_iff]
    by_cases h65 : c.val ≥ 65
    · right
      rw [decide_eq_false_iff_not]
      intro h90
      apply h
      have g1 : 65 ≤ c.toNat := by
        simp [UInt32.le_def, BitVec.le_def] at h65
        exact h65
      have g2 : c.toNat ≤ 90 := by
        simp [UInt32.le_def, BitVec.le_def] at h90
        exact h90
      exact ⟨g1, g2⟩
    · left
      rw [decide_eq_false_iff_not]
      exact h65

/-- C9 counterexample: sanitizing "AI & You: 2025!" yields "ai__you_2025"
with two consecutive underscores (each space becomes one underscore and
the stripped "&" leaves the two adjacent), not the claimed "ai_you_2025". -/
theorem sanitize_filename_example_counterexample :
    sanitize_filename
        ['A', 'I', ' ', '&', ' ', 'Y', 'o', 'u', ':', ' ', '2', '0', '2', '5', '!'] =
      ['a', 'i', '_', '_', 'y', 'o', 'u', '_', '2', '0', '2', '5'] ∧
    (['a', 'i', '_', '_', 'y', 'o', 'u', '_', '2', '0', '2', '5'] : Str) ≠
      ['a', 'i', '_', 'y', 'o', 'u', '_', '2', '0', '2', '5'] := by
  decide

/-- C9 amended: every character of a sanitized filename is a word
character (letter, digit, underscore) or a hyphen, is never an uppercase
letter, and is never a space; consecutive underscores can occur, and
"AI & You: 2025!" sanitizes to "ai__you_2025". -/
theorem sanitize_filename_chars (name : Str) :
    ∀ c ∈ sanitize_filename name,
      (isWordChar c || c == '-') = true ∧ c.isUpper = false ∧ c ≠ ' ' := by
  intro c hc
  rw [sanitize_filename] at hc
  have hpred := List.of_mem_filter hc
  have hmem := List.mem_of_mem_filter hc
  rcases List.mem_map.mp hmem with ⟨d, _, rfl⟩
  refine ⟨hpred, toLower_isUpper_eq_false d, fun hceq => ?_⟩
  rw [hceq] at hpred
  exact absurd hpred (by decide)

/-- Witness for the amended C9 at a concrete title. -/
theorem sanitize_filename_chars_witness :
    'a' ∈ sanitize_filename ['A', 'b'] ∧
    (isWordChar 'a' || 'a' == '-') = true ∧ Char.isUpper 'a' = false ∧ 'a' ≠ ' ' :=
  ⟨by decide, sanitize_filename_chars ['A', 'b'] 'a' (by decide)⟩
